import Mathlib

/-!
# Verification of the supervisor dashboard's live-synchronization layer

Shallow embedding of the client-side core of the `supervisor` dashboard:
the streaming chat response consumer (`sendChatMessage`), the poller
lifecycle functions (`startLogsInterval` / `stopLogsInterval`,
`startSupervisorLogsInterval` / `stopSupervisorLogsInterval`,
`startSecurityPoll` / `stopSecurityPoll`), the scroll-preserving log
viewers (`refreshServiceLogs`, `loadSupervisorLogs` and their scroll /
live-checkbox listeners), the metrics chart renderer (`drawChart`,
`refreshMetrics`) and the `escapeHtml` utility.

Machine numbers are modelled with exact rationals (`ℚ`); the JavaScript
`NaN`/`undefined` propagation, where a claim depends on it, is modelled
by the explicit `JSNum` type.  Strings are handled at the character
level (`List Char`); the streaming `TextDecoder` is the identity on the
character sequences considered here, so chunks are character lists.
-/

namespace Supervisor

/-! ## Streaming Response Consumer (sendChatMessage read loop)

The JS loop repeatedly reads a chunk, splits the chunk on newline
characters, keeps the lines that begin with the marker `data: `, strips
the 6-character marker with slice(6) and feeds the remainder to
JSON.parse; a parse failure is caught and ignored.  There is no buffer
carried from one chunk to the next. -/

/-- A parsed stream frame: the JSON object with a `type` tag and an
optional `content` field carried by a `data: ` line (spec section 6). -/
structure ChatFrame where
  ftype : List Char
  content : Option (List Char)
deriving DecidableEq, Repr

/-- Models the JavaScript split of a chunk on the newline character, on
character lists: the empty chunk gives one empty line, and a trailing
newline contributes a final empty line. -/
def splitNl : List Char → List (List Char)
  | [] => [[]]
  | c :: rest =>
    if c = '\n' then [] :: splitNl rest
    else
      match splitNl rest with
      | l :: ls => (c :: l) :: ls
      | [] => [[c]]

/-- The fixed six-character frame marker, `data: ` with a trailing
space. -/
def dataMarker : List Char := ['d', 'a', 't', 'a', ':', ' ']

/-- Models the source test that a line starts with the marker combined
with the slice(6) that strips it: returns the body when the marker is
present, `none` otherwise. -/
def dropDataMarker : List Char → Option (List Char)
  | 'd' :: 'a' :: 't' :: 'a' :: ':' :: ' ' :: rest => some rest
  | _ => none

/-- The events a single decoded chunk contributes: each line carrying the
`data: ` marker whose body parses successfully, in line order.  `parse`
abstracts `JSON.parse` composed with the frame-shape check. -/
def chunkFrames (parse : List Char → Option ChatFrame) (chunk : List Char) :
    List ChatFrame :=
  (splitNl chunk).filterMap fun line =>
    match dropDataMarker line with
    | some body => parse body
    | none => none

/-- The ordered event sequence produced by the `sendChatMessage` read
loop over a list of decoded chunks.  Faithful to the source: every chunk
is split on newlines independently, with no buffer carried across chunk
boundaries. -/
def consumeChunks (parse : List Char → Option ChatFrame)
    (chunks : List (List Char)) : List ChatFrame :=
  (chunks.map (chunkFrames parse)).flatten

/-- Reads the characters of a JSON string up to the closing quote.
Escape sequences and embedded quotes are rejected (the dashboard frames
carry neither). -/
def scanJsonStr : List Char → Option (List Char × List Char)
  | [] => none
  | c :: rest =>
    if c = '"' then some ([], rest)
    else if c = '\\' then none
    else
      match scanJsonStr rest with
      | some (s, r) => some (c :: s, r)
      | none => none

/-- Expects a literal prefix and returns the remainder. -/
def dropLit : List Char → List Char → Option (List Char)
  | [], cs => some cs
  | p :: ps, c :: cs => if c = p then dropLit ps cs else none
  | _ :: _, [] => none

/-- The opening characters of a frame object up to and including the
quote that starts the type tag value. -/
def keyTypeLit : List Char := ['\x7b', '"', 't', 'y', 'p', 'e', '"', ':', '"']

/-- The characters separating the type value from the content value, up
to and including the quote that starts the content value. -/
def keyContentLit : List Char :=
  [',', '"', 'c', 'o', 'n', 't', 'e', 'n', 't', '"', ':', '"']

/-- Models JSON.parse restricted to the frame bodies the streaming
endpoint emits (spec section 6): an object with a quoted `type` value
and an optional quoted `content` value, both quote-free and escape-free.
Any other body — in particular the torso of a frame cut by a chunk
boundary — fails to parse, as JSON.parse would. -/
def jsonParseFrame (cs : List Char) : Option ChatFrame :=
  match dropLit keyTypeLit cs with
  | none => none
  | some r1 =>
    match scanJsonStr r1 with
    | none => none
    | some (t, r2) =>
      if r2 = ['\x7d'] then some ⟨t, none⟩
      else
        match dropLit keyContentLit r2 with
        | none => none
        | some r3 =>
          match scanJsonStr r3 with
          | none => none
          | some (c, r4) => if r4 = ['\x7d'] then some ⟨t, some c⟩ else none

/-- A well-formed SSE-style payload: each body wrapped in the frame
marker and a terminating newline, all frames concatenated. -/
def mkSSE (bodies : List (List Char)) : List Char :=
  (bodies.map fun b => dataMarker ++ b ++ ['\n']).flatten

/-! ## Poller Lifecycle Manager

The three named pollers of the dashboard.  Each start function first
calls its stop function (clearing the interval variable and the
scheduled timer), then calls setInterval and stores the returned timer
id; the service-logs and supervisor-logs starts are gated on the live
checkbox, the security-scan start is not.  A world tracks the interval
variable, the multiset of currently scheduled interval timers (fresh
ids from a counter), and the checkbox state.  The second component
returned by a start function counts the synchronous tick invocations
the start function itself performs: `setInterval` does not fire its
callback at registration time, so this is the faithful model of an
immediate tick. -/

/-- The tick callback registered by each poller. -/
inductive TickTag
  | refreshServiceLogsTick
  | loadSupervisorLogsTick
  | securityScanTick
deriving DecidableEq, Repr

/-- One scheduled interval timer: its id, its period in milliseconds and
its callback. -/
structure TimerRec where
  tid : Nat
  ms : Nat
  tick : TickTag
deriving DecidableEq, Repr

/-- The mutable state relevant to one poller: the live checkbox, the JS
variable holding the last interval id, the timers currently scheduled in
the event loop, and the id counter. -/
structure PollerWorld where
  liveChecked : Bool
  intervalVar : Option Nat
  scheduled : List TimerRec
  nextId : Nat
deriving DecidableEq, Repr

/-- Models setInterval: schedules a fresh timer and returns its id. -/
def setIntervalJs (ms : Nat) (tk : TickTag) (w : PollerWorld) :
    Nat × PollerWorld :=
  (w.nextId,
   { w with
     scheduled := w.scheduled ++ [⟨w.nextId, ms, tk⟩],
     nextId := w.nextId + 1 })

/-- Models clearInterval: deschedules the timer with the given id. -/
def clearIntervalJs (id : Nat) (w : PollerWorld) : PollerWorld :=
  { w with scheduled := w.scheduled.filter fun t => t.tid ≠ id }

/-- Source stopLogsInterval: if the interval variable is set, clear that
interval and null the variable; otherwise do nothing. -/
def stopLogsInterval (w : PollerWorld) : PollerWorld :=
  match w.intervalVar with
  | some id => { clearIntervalJs id w with intervalVar := none }
  | none => w

/-- Source startLogsInterval: stop first, then schedule the 1000 ms
refresh only when the live checkbox is checked.  No synchronous tick is
invoked. -/
def startLogsInterval (w : PollerWorld) : PollerWorld × Nat :=
  let w := stopLogsInterval w
  if w.liveChecked then
    let p := setIntervalJs 1000 TickTag.refreshServiceLogsTick w
    ({ p.2 with intervalVar := some p.1 }, 0)
  else (w, 0)

/-- Source stopSupervisorLogsInterval, same shape as the service-logs
stop. -/
def stopSupervisorLogsInterval (w : PollerWorld) : PollerWorld :=
  match w.intervalVar with
  | some id => { clearIntervalJs id w with intervalVar := none }
  | none => w

/-- Source startSupervisorLogsInterval: stop first, then schedule the
1000 ms refresh when its live checkbox is checked. -/
def startSupervisorLogsInterval (w : PollerWorld) : PollerWorld × Nat :=
  let w := stopSupervisorLogsInterval w
  if w.liveChecked then
    let p := setIntervalJs 1000 TickTag.loadSupervisorLogsTick w
    ({ p.2 with intervalVar := some p.1 }, 0)
  else (w, 0)

/-- Source stopSecurityPoll, same shape as the other stops. -/
def stopSecurityPoll (w : PollerWorld) : PollerWorld :=
  match w.intervalVar with
  | some id => { clearIntervalJs id w with intervalVar := none }
  | none => w

/-- Source startSecurityPoll: stop first, then schedule the 2000 ms poll
unconditionally.  No synchronous tick is invoked; the first poll fires
only after the 2000 ms delay. -/
def startSecurityPoll (w : PollerWorld) : PollerWorld × Nat :=
  let w := stopSecurityPoll w
  let p := setIntervalJs 2000 TickTag.securityScanTick w
  ({ p.2 with intervalVar := some p.1 }, 0)

/-- The three poller names of the dashboard. -/
inductive PollerKind
  | serviceLogs
  | supervisorLogs
  | securityScan
deriving DecidableEq, Repr

/-- Dispatch to the start function of a named poller. -/
def startPoller : PollerKind → PollerWorld → PollerWorld × Nat
  | .serviceLogs, w => startLogsInterval w
  | .supervisorLogs, w => startSupervisorLogsInterval w
  | .securityScan, w => startSecurityPoll w

/-- Dispatch to the stop function of a named poller. -/
def stopPoller : PollerKind → PollerWorld → PollerWorld
  | .serviceLogs, w => stopLogsInterval w
  | .supervisorLogs, w => stopSupervisorLogsInterval w
  | .securityScan, w => stopSecurityPoll w

/-- Whether a start call of this kind actually schedules, in the given
world: the logs starts are gated on the live checkbox, the security poll
is not. -/
def gateOf : PollerKind → PollerWorld → Bool
  | .securityScan, _ => true
  | _, w => w.liveChecked

/-- The interval period each poller registers (spec section 6). -/
def msOf : PollerKind → Nat
  | .serviceLogs => 1000
  | .supervisorLogs => 1000
  | .securityScan => 2000

/-- The tick callback each poller registers. -/
def tickOf : PollerKind → TickTag
  | .serviceLogs => .refreshServiceLogsTick
  | .supervisorLogs => .loadSupervisorLogsTick
  | .securityScan => .securityScanTick

/-- An external call on one poller. -/
inductive PollerCall
  | start
  | stop
deriving DecidableEq, Repr

/-- One call applied to the world. -/
def stepCall (k : PollerKind) : PollerCall → PollerWorld → PollerWorld
  | .start, w => (startPoller k w).1
  | .stop, w => stopPoller k w

/-- A finite sequence of calls applied in order. -/
def runCalls (k : PollerKind) (calls : List PollerCall) (w : PollerWorld) :
    PollerWorld :=
  calls.foldl (fun w c => stepCall k c w) w

/-- The page-load state of a poller: no interval variable, no scheduled
timer. -/
def pollerInit (checked : Bool) : PollerWorld := ⟨checked, none, [], 0⟩

/-- The number of timers currently scheduled for this poller. -/
def timerCount (w : PollerWorld) : Nat := w.scheduled.length

/-- The coupling invariant of the source: every scheduled timer is the
one whose id the interval variable holds, and at most one is
scheduled. -/
def pollerInv (w : PollerWorld) : Prop :=
  (∀ t ∈ w.scheduled, w.intervalVar = some t.tid) ∧ w.scheduled.length ≤ 1

instance (w : PollerWorld) : Decidable (pollerInv w) := by
  unfold pollerInv; infer_instance

/-! ## Scroll-Preserving Log Viewer

A log container is modelled by its scroll offset, its viewport height
and the rendered lines; each rendered line is 10 pixels tall, so the
scroll height is 10 times the line count.  Replacing the content keeps
the scroll offset but the browser clamps it into the new scrollable
range. -/

/-- The scrollable log container. -/
structure LogsView where
  scrollTop : Int
  clientHeight : Int
  lines : List Nat
deriving DecidableEq, Repr

/-- The scrollHeight property: total content height, 10 pixels per
line. -/
def viewScrollHeight (v : LogsView) : Int := 10 * v.lines.length

/-- The at-bottom test of the source, with its 50 pixel tolerance. -/
def atBottomPred (v : LogsView) : Bool :=
  viewScrollHeight v - v.scrollTop - v.clientHeight < 50

/-- Browser behaviour on content replacement: the scroll offset is
clamped into the new scrollable range. -/
def clampScroll (v : LogsView) : LogsView :=
  { v with scrollTop := max 0 (min v.scrollTop (viewScrollHeight v - v.clientHeight)) }

/-- Source refreshServiceLogs, scroll part: capture the at-bottom flag
before replacing, replace the lines, and reset the offset to the bottom
when follow mode is on (the user has not scrolled away) or the view was
at the bottom; otherwise the raw offset is left as the browser clamped
it. -/
def refreshServiceLogsRender (logsUserScrolled : Bool) (v : LogsView)
    (newLines : List Nat) : LogsView :=
  let wasAtBottom := atBottomPred v
  let v1 := clampScroll { v with lines := newLines }
  if !logsUserScrolled || wasAtBottom then
    { v1 with scrollTop := max 0 (viewScrollHeight v1 - v1.clientHeight) }
  else v1

/-- Source loadSupervisorLogs, scroll part: the supervisor log is
rendered newest-first, so the live edge is the top; capture the at-top
flag before replacing and reset the offset to 0 when follow mode is on
or the view was at the top. -/
def loadSupervisorLogsRender (userScrolled : Bool) (v : LogsView)
    (newLines : List Nat) : LogsView :=
  let wasAtTop := v.scrollTop < 50
  let v1 := clampScroll { v with lines := newLines }
  if !userScrolled || wasAtTop then { v1 with scrollTop := 0 } else v1

/-- The line shown at the top of the viewport: the reading position. -/
def firstVisibleLine (v : LogsView) : Option Nat :=
  v.lines[v.scrollTop.toNat / 10]?

/-! ## Follow-mode state (the user-scrolled flags and their listeners) -/

/-- The flag each log view keeps; follow mode is its negation. -/
structure FollowSt where
  userScrolled : Bool
deriving DecidableEq, Repr

/-- The events that touch the flag: a scroll event carrying the element
geometry, and the live checkbox change event. -/
inductive FollowEvent
  | scrollEv (scrollTop scrollHeight clientHeight : Int)
  | liveChange (checked : Bool)
deriving DecidableEq, Repr

/-- The scroll and change listeners of the bottom-anchored service-logs
view: a scroll event recomputes the flag from the distance to the
bottom; checking the live box clears the flag; unchecking it leaves the
flag alone. -/
def followStepBottom : FollowEvent → FollowSt → FollowSt
  | .scrollEv st sh ch, _ => ⟨!decide (sh - st - ch < 50)⟩
  | .liveChange true, _ => ⟨false⟩
  | .liveChange false, s => s

/-- The scroll and change listeners of the top-anchored supervisor-logs
view: the distance to the top replaces the distance to the bottom. -/
def followStepTop : FollowEvent → FollowSt → FollowSt
  | .scrollEv st _ _, _ => ⟨!decide (st < 50)⟩
  | .liveChange true, _ => ⟨false⟩
  | .liveChange false, s => s

/-- Follow mode is the negation of the user-scrolled flag. -/
def followMode (s : FollowSt) : Bool := !s.userScrolled

/-- The flag starts cleared, so follow mode starts true. -/
def followInit : FollowSt := ⟨false⟩

/-! ## Time-Series Chart Renderer (drawChart), exact-number part -/

/-- Models the spread of Math.max over a value list; the empty case is
unreachable in drawChart, which returns early on empty data. -/
def jsMaxList : List ℚ → ℚ
  | [] => 0
  | x :: xs => xs.foldl max x

/-- The vertical scale of drawChart: the maximum value times 1.1, with
the falsy-or fallback to 1 that fires exactly when the product is 0. -/
def chartMax (data : List ℚ) : ℚ :=
  let m := jsMaxList data * (11 / 10)
  if m = 0 then 1 else m

/-- Models toFixed(1) on a non-negative number: round half up to one
decimal place. -/
def jsToFixed1 (q : ℚ) : ℚ := (⌊q * 10 + 1 / 2⌋ : ℚ) / 10

/-- The five gridline labels of drawChart: for each division index the
scale minus a quarter of the scale times the index, printed with
toFixed(1). -/
def gridLabels (data : List ℚ) : List ℚ :=
  (List.range 5).map fun i => jsToFixed1 (chartMax data - chartMax data / 4 * i)

/-! ## Chart renderer, NaN / undefined propagation -/

/-- A JavaScript number as drawChart sees one: undefined, NaN, or an
actual (here exact) number. -/
inductive JSNum
  | undef
  | nan
  | num (q : ℚ)
deriving DecidableEq, Repr

/-- The ToNumber coercion: undefined coerces to NaN. -/
def JSNum.toNumber : JSNum → JSNum
  | undef => nan
  | nan => nan
  | num q => num q

/-- Addition; any non-number operand yields NaN. -/
def JSNum.add : JSNum → JSNum → JSNum
  | num a, num b => num (a + b)
  | _, _ => nan

/-- Subtraction; any non-number operand yields NaN. -/
def JSNum.sub : JSNum → JSNum → JSNum
  | num a, num b => num (a - b)
  | _, _ => nan

/-- Multiplication; any non-number operand yields NaN. -/
def JSNum.mul : JSNum → JSNum → JSNum
  | num a, num b => num (a * b)
  | _, _ => nan

/-- Division; any non-number operand yields NaN.  A zero divisor is
mapped to NaN as well; drawChart never divides by zero, because the
vertical scale is never 0 (the falsy-or replaces 0 by 1). -/
def JSNum.div : JSNum → JSNum → JSNum
  | num a, num b => if b = 0 then nan else num (a / b)
  | _, _ => nan

/-- The NaN test. -/
def JSNum.isNan : JSNum → Bool
  | nan => true
  | _ => false

/-- JavaScript falsiness of a numeric value: undefined, NaN and 0 are
falsy. -/
def jsFalsy : JSNum → Bool
  | .undef => true
  | .nan => true
  | .num q => decide (q = 0)

/-- The JavaScript or-else operator on numeric values: keep the left
operand unless it is falsy. -/
def jsOr (a b : JSNum) : JSNum := if jsFalsy a then b else a

/-- Math.max on two values: any operand that coerces to NaN makes the
result NaN. -/
def jsMax2 (a b : JSNum) : JSNum :=
  match a.toNumber, b.toNumber with
  | .num x, .num y => .num (max x y)
  | _, _ => .nan

/-- The spread of Math.max over the data list, NaN-propagating; the
empty case is unreachable (drawChart returns early on empty data). -/
def jsMaxListJs : List JSNum → JSNum
  | [] => .nan
  | x :: xs => xs.foldl jsMax2 x.toNumber

/-- The vertical scale computation of drawChart on JavaScript numbers:
the maximum times 1.1, with the falsy-or fallback to 1 that also fires
when the maximum is NaN. -/
def chartMaxJs (data : List JSNum) : JSNum :=
  jsOr (JSNum.mul (jsMaxListJs data) (JSNum.num (11 / 10))) (JSNum.num 1)

/-- The y coordinate of a plotted point: top padding plus plot height,
minus the value divided by the scale and multiplied by the plot
height. -/
def yCoordJs (padT plotH : ℚ) (maxV v : JSNum) : JSNum :=
  JSNum.sub (JSNum.add (JSNum.num padT) (JSNum.num plotH))
    (JSNum.mul (JSNum.div v maxV) (JSNum.num plotH))

/-- The disk series mapping in refreshMetrics: each disk value is passed
through the falsy-or with 0, so an absent or NaN value becomes 0. -/
def diskSeries (vals : List JSNum) : List JSNum :=
  vals.map fun v => jsOr v (JSNum.num 0)

/-! ## Hour-boundary tick generation of drawChart

Timestamps are milliseconds since the epoch; the embedding works in a
timezone whose offset is a whole number of hours aligned with the epoch,
so zeroing minutes, seconds and milliseconds is flooring to a multiple
of 3600000. -/

/-- Milliseconds per hour. -/
def hourMs : Nat := 3600000

/-- Zeroing minutes, seconds and milliseconds of a timestamp. -/
def floorHour (t : Nat) : Nat := t / hourMs * hourMs

/-- The while loop of the hourly-marker pass: emit the running clock
while it has not passed the last timestamp, stepping one hour at a
time. -/
def ticksFrom (maxT t : Nat) : List Nat :=
  if t ≤ maxT then t :: ticksFrom maxT (t + hourMs) else []
termination_by maxT + 1 - t
decreasing_by simp [hourMs]; omega

/-- The starting clock of the source: floor the first timestamp to the
hour, then advance one hour whenever the floored value is at or before
the first timestamp — which is always. -/
def firstTick (minT : Nat) : Nat :=
  let fh := floorHour minT
  if fh ≤ minT then fh + hourMs else fh

/-- The hour ticks drawChart generates over a non-degenerate time
span. -/
def hourTicks (minT maxT : Nat) : List Nat := ticksFrom maxT (firstTick minT)

/-- Modelled from the spec: the spec words start the clock at the first
hour boundary at or after the first data timestamp, so a first timestamp
already on the hour keeps its own boundary. -/
def hourTicksSpec (minT maxT : Nat) : List Nat :=
  ticksFrom maxT
    (let fh := floorHour minT
     if fh < minT then fh + hourMs else fh)

/-- The hour number printed in the HH:00 label of a tick. -/
def hourLabelHour (t : Nat) : Nat := t / hourMs % 24

/-- The x coordinate of a timestamp: left padding plus the linear
interpolation of the timestamp into the plot width. -/
def xCoord (minT maxT : Nat) (padL plotW : ℚ) (t : Nat) : ℚ :=
  padL + ((t : ℚ) - (minT : ℚ)) / ((maxT : ℚ) - (minT : ℚ)) * plotW

/-! ## escapeHtml -/

/-- The entity encoding one character receives in the textContent to
innerHTML round trip: the ampersand and the angle brackets become
entities, everything else is kept. -/
def escapeChar (c : Char) : List Char :=
  if c = '&' then ['&', 'a', 'm', 'p', ';']
  else if c = '<' then ['&', 'l', 't', ';']
  else if c = '>' then ['&', 'g', 't', ';']
  else [c]

/-- Source escapeHtml: a falsy input (null, undefined or the empty
string, modelled as `none` or the empty character list) returns the
empty string; otherwise the text is entity-encoded by the DOM round
trip. -/
def escapeHtml (t : Option (List Char)) : List Char :=
  match t with
  | none => []
  | some s => if s = [] then [] else s.flatMap escapeChar

/-! ## Lemmas about the streaming consumer -/

lemma splitNl_append_nl (l r : List Char) (h : '\n' ∉ l) :
    splitNl (l ++ '\n' :: r) = l :: splitNl r := by
  induction l with
  | nil => simp [splitNl]
  | cons c cs ih =>
    have hc : ¬ c = '\n' := fun hh => h (hh ▸ List.mem_cons_self c cs)
    have hcs : '\n' ∉ cs := fun hh => h (List.mem_cons_of_mem _ hh)
    have ihr := ih hcs
    show splitNl (c :: (cs ++ '\n' :: r)) = (c :: cs) :: splitNl r
    simp only [splitNl, if_neg hc, ihr]

lemma splitNl_mkSSE (bodies : List (List Char))
    (h : ∀ b ∈ bodies, '\n' ∉ b) :
    splitNl (mkSSE bodies) = (bodies.map fun b => dataMarker ++ b) ++ [[]] := by
  induction bodies with
  | nil => simp [mkSSE, splitNl]
  | cons b bs ih =>
    have hb : '\n' ∉ dataMarker ++ b := by
      intro hm
      rcases List.mem_append.1 hm with h1 | h2
      · simp [dataMarker] at h1
      · exact h b (List.mem_cons_self b bs) h2
    have hbs : ∀ x ∈ bs, '\n' ∉ x := fun x hx => h x (List.mem_cons_of_mem _ hx)
    have : mkSSE (b :: bs) = (dataMarker ++ b) ++ '\n' :: mkSSE bs := by
      simp [mkSSE, List.append_assoc]
    rw [this, splitNl_append_nl _ _ hb, ih hbs]
    simp

lemma dropDataMarker_marker (b : List Char) :
    dropDataMarker (dataMarker ++ b) = some b := rfl

lemma chunkFrames_mkSSE (parse : List Char → Option ChatFrame)
    (bodies : List (List Char)) (h : ∀ b ∈ bodies, '\n' ∉ b) :
    chunkFrames parse (mkSSE bodies) = bodies.filterMap parse := by
  unfold chunkFrames
  rw [splitNl_mkSSE bodies h, List.filterMap_append]
  have h2 : List.filterMap
      (fun line => match dropDataMarker line with
        | some body => parse body
        | none => none) [([] : List Char)] = [] := by
    simp [List.filterMap, dropDataMarker]
  rw [h2, List.append_nil]
  induction bodies with
  | nil => rfl
  | cons b bs ih =>
    have hbs : ∀ x ∈ bs, '\n' ∉ x := fun x hx => h x (List.mem_cons_of_mem _ hx)
    simp only [List.map_cons, List.filterMap_cons, dropDataMarker_marker]
    cases hp : parse b <;> simp [hp, ih hbs]

/-! ## Lemmas about the poller model -/

lemma stop_spec (k : PollerKind) (w : PollerWorld) (h : pollerInv w) :
    stopPoller k w = ⟨w.liveChecked, none, [], w.nextId⟩ := by
  obtain ⟨h1, h2⟩ := h
  have hkey : ∀ id, w.intervalVar = some id → ∀ a ∈ w.scheduled, a.tid = id := by
    intro id hid a ha
    have hx := h1 a ha
    rw [hid] at hx
    exact (Option.some_inj.mp hx).symm
  cases k <;>
    · show (match w.intervalVar with
        | some id => { clearIntervalJs id w with intervalVar := none }
        | none => w) = _
      cases hv : w.intervalVar with
      | none =>
        have hs : w.scheduled = [] := by
          by_contra hne
          obtain ⟨t, ht⟩ := List.exists_mem_of_ne_nil w.scheduled hne
          have hx := h1 t ht
          rw [hv] at hx
          exact absurd hx (by simp)
        cases w
        simp_all
      | some id =>
        have hfil : List.filter (fun t => decide (t.tid ≠ id)) w.scheduled
            = [] := by
          rw [List.filter_eq_nil_iff]
          intro a ha
          simp [hkey id hv a ha]
        show ({ clearIntervalJs id w with intervalVar := none } : PollerWorld)
          = _
        simp only [clearIntervalJs]
        simp
        exact hkey id hv

lemma start_spec (k : PollerKind) (w : PollerWorld) (h : pollerInv w) :
    startPoller k w =
      (if gateOf k w
       then ⟨w.liveChecked, some w.nextId,
             [⟨w.nextId, msOf k, tickOf k⟩], w.nextId + 1⟩
       else ⟨w.liveChecked, none, [], w.nextId⟩, 0) := by
  have hs1 : stopLogsInterval w = ⟨w.liveChecked, none, [], w.nextId⟩ :=
    stop_spec .serviceLogs w h
  have hs2 : stopSupervisorLogsInterval w = ⟨w.liveChecked, none, [], w.nextId⟩ :=
    stop_spec .supervisorLogs w h
  have hs3 : stopSecurityPoll w = ⟨w.liveChecked, none, [], w.nextId⟩ :=
    stop_spec .securityScan w h
  cases k <;>
    · simp [startPoller, startLogsInterval, startSupervisorLogsInterval,
        startSecurityPoll, hs1, hs2, hs3, setIntervalJs, gateOf, msOf, tickOf]
      try split <;> rfl

lemma inv_stop (k : PollerKind) (w : PollerWorld) (h : pollerInv w) :
    pollerInv (stopPoller k w) := by
  rw [stop_spec k w h]
  exact ⟨by simp, by simp⟩

lemma inv_start (k : PollerKind) (w : PollerWorld) (h : pollerInv w) :
    pollerInv (startPoller k w).1 := by
  rw [start_spec k w h]
  by_cases hg : gateOf k w = true
  · simp only [hg, if_true]
    refine ⟨?_, by simp⟩
    intro t ht
    simp at ht
    simp [ht]
  · simp only [Bool.not_eq_true] at hg
    simp only [hg, Bool.false_eq_true, if_false]
    exact ⟨by simp, by simp⟩

lemma inv_step (k : PollerKind) (c : PollerCall) (w : PollerWorld)
    (h : pollerInv w) : pollerInv (stepCall k c w) := by
  cases c
  · exact inv_start k w h
  · exact inv_stop k w h

lemma inv_run (k : PollerKind) (calls : List PollerCall) (w : PollerWorld)
    (h : pollerInv w) : pollerInv (runCalls k calls w) := by
  induction calls generalizing w with
  | nil => exact h
  | cons c cs ih => exact ih _ (inv_step k c w h)

lemma inv_init (checked : Bool) : pollerInv (pollerInit checked) :=
  ⟨by simp [pollerInit], by simp [pollerInit]⟩

lemma runCalls_append (k : PollerKind) (a b : List PollerCall)
    (w : PollerWorld) :
    runCalls k (a ++ b) w = runCalls k b (runCalls k a w) := by
  simp [runCalls, List.foldl_append]

lemma run_ending_stop (k : PollerKind) (checked : Bool)
    (calls : List PollerCall) :
    (runCalls k (calls ++ [PollerCall.stop]) (pollerInit checked)).scheduled
      = [] := by
  rw [runCalls_append]
  have hinv := inv_run k calls _ (inv_init checked)
  show (stopPoller k _).scheduled = []
  rw [stop_spec k _ hinv]

/-! ## Lemmas about the chart scale -/

lemma foldl_max_of_le (a : ℚ) (l : List ℚ) (h : ∀ v ∈ l, v ≤ a) :
    l.foldl max a = a := by
  induction l with
  | nil => rfl
  | cons x xs ih =>
    have hx : max a x = a :=
      max_eq_left (h x (List.mem_cons_self x xs))
    have hxs : ∀ v ∈ xs, v ≤ a := fun v hv => h v (List.mem_cons_of_mem _ hv)
    simp only [List.foldl_cons, hx, ih hxs]

lemma le_foldl_max (a : ℚ) (l : List ℚ) : a ≤ l.foldl max a := by
  induction l generalizing a with
  | nil => exact le_refl a
  | cons x xs ih =>
    exact le_trans (le_max_left a x) (ih (max a x))

lemma mem_le_foldl_max (v : ℚ) (l : List ℚ) : ∀ a : ℚ, v ∈ l → v ≤ l.foldl max a := by
  induction l with
  | nil => intro a h; cases h
  | cons x xs ih =>
    intro a h
    rcases List.mem_cons.1 h with rfl | hxs
    · exact le_trans (le_max_right a v) (le_foldl_max _ xs)
    · exact ih (max a x) hxs

lemma le_jsMaxList (data : List ℚ) (v : ℚ) (h : v ∈ data) :
    v ≤ jsMaxList data := by
  rcases data with _ | ⟨x, xs⟩
  · cases h
  · rcases List.mem_cons.1 h with rfl | hxs
    · exact le_foldl_max v xs
    · exact mem_le_foldl_max v xs x hxs

/-! ## Lemmas about the hour-tick loop -/

lemma ticksFrom_le (maxT t : Nat) (h : t ≤ maxT) :
    ticksFrom maxT t = t :: ticksFrom maxT (t + hourMs) := by
  rw [ticksFrom]
  simp [h]

lemma ticksFrom_gt (maxT t : Nat) (h : maxT < t) : ticksFrom maxT t = [] := by
  rw [ticksFrom]
  simp [Nat.not_le.mpr h]

lemma mem_ticksFrom (maxT hh : Nat) :
    ∀ t, hh ∈ ticksFrom maxT t ↔ t ≤ hh ∧ hh ≤ maxT ∧ (hh - t) % hourMs = 0 := by
  have H : ∀ fuel t, maxT + 1 - t ≤ fuel →
      (hh ∈ ticksFrom maxT t ↔ t ≤ hh ∧ hh ≤ maxT ∧ (hh - t) % hourMs = 0) := by
    intro fuel
    induction fuel with
    | zero =>
      intro t ht
      have hgt : maxT < t := by omega
      rw [ticksFrom_gt maxT t hgt]
      simp only [List.not_mem_nil, false_iff]
      rintro ⟨h1, h2, h3⟩
      omega
    | succ n ih =>
      intro t ht
      by_cases hle : t ≤ maxT
      · rw [ticksFrom_le maxT t hle]
        have hfuel : maxT + 1 - (t + hourMs) ≤ n := by
          simp only [hourMs] at *
          omega
        rw [List.mem_cons, ih (t + hourMs) hfuel]
        simp only [hourMs] at *
        constructor
        · rintro (rfl | ⟨h1, h2, h3⟩)
          · exact ⟨le_refl _, hle, by simp⟩
          · exact ⟨by omega, h2, by omega⟩
        · rintro ⟨h1, h2, h3⟩
          by_cases heq : hh = t
          · exact Or.inl heq
          · right
            refine ⟨by omega, h2, by omega⟩
      · rw [ticksFrom_gt maxT t (by omega)]
        simp only [List.not_mem_nil, false_iff]
        rintro ⟨h1, h2, h3⟩
        omega
  exact fun t => H (maxT + 1 - t) t (le_refl _)

lemma firstTick_eq (minT : Nat) :
    firstTick minT = minT / hourMs * hourMs + hourMs := by
  simp [firstTick, floorHour, Nat.div_mul_le_self]

lemma xCoord_bounds (minT maxT t : Nat) (hspan : minT < maxT)
    (h1 : minT < t) (h2 : t ≤ maxT) (padL plotW : ℚ) (hw : 0 ≤ plotW) :
    padL ≤ xCoord minT maxT padL plotW t
    ∧ xCoord minT maxT padL plotW t ≤ padL + plotW := by
  have hden : (0 : ℚ) < (maxT : ℚ) - (minT : ℚ) := by
    have : (minT : ℚ) < maxT := by exact_mod_cast hspan
    linarith
  have hnum0 : (0 : ℚ) ≤ (t : ℚ) - minT := by
    have : (minT : ℚ) ≤ t := by exact_mod_cast le_of_lt h1
    linarith
  have hfrac0 : 0 ≤ ((t : ℚ) - minT) / ((maxT : ℚ) - minT) :=
    div_nonneg hnum0 (le_of_lt hden)
  have hfrac1 : ((t : ℚ) - minT) / ((maxT : ℚ) - minT) ≤ 1 := by
    rw [div_le_one hden]
    have : (t : ℚ) ≤ maxT := by exact_mod_cast h2
    linarith
  constructor
  · unfold xCoord
    nlinarith [mul_nonneg hfrac0 hw]
  · unfold xCoord
    nlinarith [mul_le_mul_of_nonneg_right hfrac1 hw]

/-! ## Lemmas about the NaN model -/

lemma chartMaxJs_num (data : List JSNum) :
    ∃ M : ℚ, chartMaxJs data = JSNum.num M ∧ M ≠ 0 := by
  unfold chartMaxJs
  cases hx : jsMaxListJs data with
  | undef => exact ⟨1, by simp [JSNum.mul, jsOr, jsFalsy], one_ne_zero⟩
  | nan => exact ⟨1, by simp [JSNum.mul, jsOr, jsFalsy], one_ne_zero⟩
  | num q =>
    by_cases hq : q * (11 / 10) = 0
    · exact ⟨1, by simp [JSNum.mul, jsOr, jsFalsy, hq], one_ne_zero⟩
    · exact ⟨q * (11 / 10), by simp [JSNum.mul, jsOr, jsFalsy, hq], hq⟩

/-! ## Theorems for the claims -/

/-- C1: the streaming read loop is not chunk-boundary independent.  The
frame carrying the text event for the letter a, delivered as one chunk,
yields exactly that event; the same bytes split into the chunks `da` and
the remainder yield no event at all, because each chunk is split on
newlines in isolation and the two partial lines are discarded instead of
being buffered and reassembled. -/
theorem chat_chunk_split_drops_frame :
    consumeChunks jsonParseFrame
        ["data: \x7b\"type\":\"text\",\"content\":\"a\"\x7d\n".toList]
      = [⟨"text".toList, some "a".toList⟩]
    ∧ consumeChunks jsonParseFrame
        ["da".toList, "ta: \x7b\"type\":\"text\",\"content\":\"a\"\x7d\n".toList]
      = [] := by decide

/-- C6: a frame whose body fails to parse, embedded between two
well-formed frames, is skipped while both well-formed frames are
delivered, in order.  The consumer is a total function, so the malformed
frame cannot abort the session; this holds for every parse function,
hence for JSON.parse in particular. -/
theorem chat_malformed_frame_skipped
    (parse : List Char → Option ChatFrame) (b1 bad b2 : List Char)
    (e1 e2 : ChatFrame)
    (h1 : '\n' ∉ b1) (hb : '\n' ∉ bad) (h2 : '\n' ∉ b2)
    (p1 : parse b1 = some e1) (pb : parse bad = none)
    (p2 : parse b2 = some e2) :
    consumeChunks parse [mkSSE [b1, bad, b2]] = [e1, e2] := by
  have hall : ∀ b ∈ [b1, bad, b2], '\n' ∉ b := by
    intro b hbm
    simp only [List.mem_cons, List.not_mem_nil, or_false] at hbm
    rcases hbm with rfl | rfl | rfl
    · exact h1
    · exact hb
    · exact h2
  show (chunkFrames parse (mkSSE [b1, bad, b2]) ++ []) = [e1, e2]
  rw [List.append_nil, chunkFrames_mkSSE parse _ hall]
  simp [List.filterMap_cons, p1, pb, p2]

/-- Witness for C6: concrete instantiation with the JSON.parse model, a
text frame, a truncated frame body that fails to parse, and a result
frame. -/
theorem chat_malformed_frame_skipped_witness :
    consumeChunks jsonParseFrame
        [mkSSE ["\x7b\"type\":\"text\",\"content\":\"a\"\x7d".toList,
                "\x7b\"type\":".toList,
                "\x7b\"type\":\"result\",\"content\":\"b\"\x7d".toList]]
      = [⟨"text".toList, some "a".toList⟩,
         ⟨"result".toList, some "b".toList⟩] :=
  chat_malformed_frame_skipped jsonParseFrame _ _ _ _ _
    (by decide) (by decide) (by decide) (by decide) (by decide) (by decide)

/-- C2: over every finite sequence of start and stop calls on any of the
three named pollers, at most one interval timer is scheduled at any
time; stopping an inactive poller is exactly a no-op; any sequence that
ends with a stop leaves no timer; and n starts answered by n stops leave
no timer. -/
theorem poller_single_timer (k : PollerKind) (checked : Bool)
    (calls : List PollerCall) :
    timerCount (runCalls k calls (pollerInit checked)) ≤ 1
    ∧ (∀ w : PollerWorld, w.intervalVar = none → stopPoller k w = w)
    ∧ (runCalls k (calls ++ [PollerCall.stop]) (pollerInit checked)).scheduled
        = []
    ∧ (∀ n : Nat,
        (runCalls k
          (List.replicate n PollerCall.start ++ List.replicate n PollerCall.stop)
          (pollerInit checked)).scheduled = []) := by
  refine ⟨?_, ?_, run_ending_stop k checked calls, ?_⟩
  · exact (inv_run k calls _ (inv_init checked)).2
  · intro w hw
    cases k <;>
      · show (match w.intervalVar with
          | some id => { clearIntervalJs id w with intervalVar := none }
          | none => w) = w
        rw [hw]
  · intro n
    cases n with
    | zero => rfl
    | succ m =>
      rw [List.replicate_succ' (n := m) (a := PollerCall.stop),
        ← List.append_assoc]
      exact run_ending_stop k checked _

/-- Witness for C2: a start-start-stop sequence on the service-logs
poller, the inactive stop no-op at the page-load state, and two starts
answered by two stops. -/
theorem poller_single_timer_witness :
    timerCount (runCalls PollerKind.serviceLogs
        [PollerCall.start, PollerCall.start, PollerCall.stop]
        (pollerInit true)) ≤ 1
    ∧ stopPoller PollerKind.serviceLogs (pollerInit true) = pollerInit true
    ∧ (runCalls PollerKind.serviceLogs
        ([PollerCall.start, PollerCall.start] ++ [PollerCall.stop])
        (pollerInit true)).scheduled = []
    ∧ (runCalls PollerKind.serviceLogs
        (List.replicate 2 PollerCall.start ++ List.replicate 2 PollerCall.stop)
        (pollerInit true)).scheduled = [] := by
  obtain ⟨a1, a2, a3, a4⟩ :=
    poller_single_timer PollerKind.serviceLogs true
      [PollerCall.start, PollerCall.start]
  obtain ⟨b1, -, -, -⟩ :=
    poller_single_timer PollerKind.serviceLogs true
      [PollerCall.start, PollerCall.start, PollerCall.stop]
  exact ⟨b1, a2 (pollerInit true) rfl, a3, a4 2⟩

/-- C3, counterexample: no start function invokes its tick synchronously.
At the page-load state the security-scan start performs zero immediate
tick invocations, not the one the claim requires, and the service-logs
start likewise performs zero. -/
theorem poller_start_no_immediate_tick :
    (startSecurityPoll (pollerInit true)).2 = 0
    ∧ ¬ (startSecurityPoll (pollerInit true)).2 = 1
    ∧ (startLogsInterval (pollerInit true)).2 = 0 := by decide

/-- C3 as amended: a start call performs no synchronous tick invocation;
it cancels any existing schedule and, when its gate allows (the live
checkbox for the two log pollers, always for the security poll),
registers exactly one interval timer with the documented period and the
documented tick callback; a stop call cancels the schedule.  The
initial immediate tick visible in the UI is issued separately by the
call sites, not by the start functions. -/
theorem poller_start_schedules (k : PollerKind) (w : PollerWorld)
    (h : pollerInv w) :
    (startPoller k w).2 = 0
    ∧ (gateOf k w = true →
        (startPoller k w).1.scheduled = [⟨w.nextId, msOf k, tickOf k⟩]
        ∧ (startPoller k w).1.intervalVar = some w.nextId)
    ∧ (gateOf k w = false →
        (startPoller k w).1.scheduled = []
        ∧ (startPoller k w).1.intervalVar = none)
    ∧ (stopPoller k w).scheduled = []
    ∧ (stopPoller k w).intervalVar = none := by
  rw [start_spec k w h, stop_spec k w h]
  refine ⟨rfl, ?_, ?_, rfl, rfl⟩
  · intro hg
    simp [hg]
  · intro hg
    simp [hg]

/-- Witness for C3 as amended: the security-scan start at the page-load
state schedules exactly one 2000 ms timer and ticks zero times
synchronously. -/
theorem poller_start_schedules_witness :
    (startPoller PollerKind.securityScan (pollerInit true)).2 = 0
    ∧ (startPoller PollerKind.securityScan (pollerInit true)).1.scheduled
        = [⟨0, 2000, TickTag.securityScanTick⟩] := by
  have h := poller_start_schedules PollerKind.securityScan (pollerInit true)
    (by decide)
  exact ⟨h.1, (h.2.1 rfl).1⟩

/-- C4, counterexample: with follow mode off and the view away from the
bottom, a refresh that replaces a sliding window of log lines leaves the
raw pixel offset untouched, so the first visible line changes — the
reading position is not preserved by any equivalent-offset
recomputation. -/
theorem logs_render_position_not_preserved :
    (refreshServiceLogsRender true ⟨0, 20, [1, 2, 3, 4, 5, 6, 7, 8, 9, 10]⟩
        [2, 3, 4, 5, 6, 7, 8, 9, 10, 11]).scrollTop = 0
    ∧ firstVisibleLine ⟨0, 20, [1, 2, 3, 4, 5, 6, 7, 8, 9, 10]⟩ = some 1
    ∧ firstVisibleLine (refreshServiceLogsRender true
        ⟨0, 20, [1, 2, 3, 4, 5, 6, 7, 8, 9, 10]⟩
        [2, 3, 4, 5, 6, 7, 8, 9, 10, 11]) = some 2
    ∧ ¬ firstVisibleLine (refreshServiceLogsRender true
        ⟨0, 20, [1, 2, 3, 4, 5, 6, 7, 8, 9, 10]⟩
        [2, 3, 4, 5, 6, 7, 8, 9, 10, 11])
        = firstVisibleLine ⟨0, 20, [1, 2, 3, 4, 5, 6, 7, 8, 9, 10]⟩ := by
  decide

/-- C4 as amended: both viewers capture the at-edge flag before
replacing the content; afterwards, when follow mode is on or the view
was at its edge, the offset is reset to the edge (bottom for service
logs, top for the newest-first supervisor logs); otherwise the raw pixel
offset is kept, subject only to the browser clamping it into the new
scrollable range — no equivalent reading offset is recomputed. -/
theorem logs_render_scroll (us : Bool) (v : LogsView) (nl : List Nat) :
    ((us = false ∨ atBottomPred v = true) →
      (refreshServiceLogsRender us v nl).scrollTop
        = max 0 (10 * (nl.length : Int) - v.clientHeight))
    ∧ ((us = true ∧ atBottomPred v = false) →
      (refreshServiceLogsRender us v nl).scrollTop
        = max 0 (min v.scrollTop (10 * (nl.length : Int) - v.clientHeight)))
    ∧ ((us = false ∨ v.scrollTop < 50) →
      (loadSupervisorLogsRender us v nl).scrollTop = 0)
    ∧ ((us = true ∧ ¬ v.scrollTop < 50) →
      (loadSupervisorLogsRender us v nl).scrollTop
        = max 0 (min v.scrollTop (10 * (nl.length : Int) - v.clientHeight)))
    := by
  refine ⟨?_, ?_, ?_, ?_⟩
  · rintro (rfl | hbot) <;>
      simp [refreshServiceLogsRender, clampScroll, viewScrollHeight, *]
  · rintro ⟨rfl, hbot⟩
    simp [refreshServiceLogsRender, clampScroll, viewScrollHeight, hbot]
  · rintro (rfl | htop) <;>
      simp [loadSupervisorLogsRender, clampScroll, viewScrollHeight, *]
  · rintro ⟨rfl, htop⟩
    simp [loadSupervisorLogsRender, clampScroll, viewScrollHeight, htop]

/-- Witness for C4 as amended: the spec example — follow mode on,
anchored at the end, three fresh lines — ends with the offset at the new
bottom. -/
theorem logs_render_scroll_witness :
    (refreshServiceLogsRender false ⟨0, 20, []⟩ [1, 2, 3]).scrollTop = 10 := by
  have h := logs_render_scroll false ⟨0, 20, []⟩ [1, 2, 3]
  simpa using h.1 (Or.inl rfl)

/-- C5, counterexample: after a scroll event 800 pixels from the bottom
follow mode is off; a second scroll event back to the bottom turns it on
again with no explicit live re-enable in between, contradicting the
claim that it returns to true only on explicit user action. -/
theorem follow_mode_implicit_reenable :
    followMode (followStepBottom (FollowEvent.scrollEv 0 1000 200) followInit)
      = false
    ∧ followMode (followStepBottom (FollowEvent.scrollEv 980 1000 200)
        (followStepBottom (FollowEvent.scrollEv 0 1000 200) followInit))
      = true := by decide

/-- C5 as amended: follow mode starts true; every scroll event
recomputes it as the test that the distance to the live edge is below
the 50 pixel tolerance (so departing by 50 or more disables it, and
scrolling back within 50 pixels re-enables it implicitly); checking the
live box sets it true; unchecking the live box leaves the flag
unchanged. -/
theorem follow_mode_transitions (s : FollowSt) (st sh ch : Int) :
    followMode followInit = true
    ∧ followMode (followStepBottom (FollowEvent.scrollEv st sh ch) s)
        = decide (sh - st - ch < 50)
    ∧ followMode (followStepTop (FollowEvent.scrollEv st sh ch) s)
        = decide (st < 50)
    ∧ followMode (followStepBottom (FollowEvent.liveChange true) s) = true
    ∧ followStepBottom (FollowEvent.liveChange false) s = s
    ∧ followMode (followStepTop (FollowEvent.liveChange true) s) = true
    ∧ followStepTop (FollowEvent.liveChange false) s = s := by
  refine ⟨rfl, ?_, ?_, rfl, rfl, rfl, rfl⟩ <;>
    simp [followMode, followStepBottom, followStepTop]

/-- C7: the vertical scale of the chart is the maximum value times 1.1,
replaced by 1 exactly when every value is zero (values are non-negative,
as the metrics source reports them); for the values 10, 20, 5 the scale
is 22 and the five gridline labels are 22.0, 16.5, 11.0, 5.5 and 0.0. -/
theorem chart_scale (data : List ℚ) (hne : data ≠ [])
    (hnn : ∀ v ∈ data, 0 ≤ v) :
    ((∀ v ∈ data, v = 0) → chartMax data = 1)
    ∧ ((∃ v ∈ data, v ≠ 0) → chartMax data = jsMaxList data * (11 / 10))
    ∧ chartMax [10, 20, 5] = 22
    ∧ gridLabels [10, 20, 5] = [22, 33 / 2, 11, 11 / 2, 0] := by
  refine ⟨?_, ?_, ?_, ?_⟩
  · intro hz
    have hmax : jsMaxList data = 0 := by
      rcases data with _ | ⟨x, xs⟩
      · exact absurd rfl hne
      · have hx : x = 0 := hz x (List.mem_cons_self x xs)
        have hxs : ∀ v ∈ xs, v ≤ x := by
          intro v hv
          rw [hz v (List.mem_cons_of_mem _ hv), hx]
        rw [jsMaxList, foldl_max_of_le x xs hxs, hx]
    simp [chartMax, hmax]
  · rintro ⟨v, hv, hvne⟩
    have hvpos : 0 < v := lt_of_le_of_ne (hnn v hv) (Ne.symm hvne)
    have hmaxpos : 0 < jsMaxList data := lt_of_lt_of_le hvpos (le_jsMaxList data v hv)
    have hm : jsMaxList data * (11 / 10) ≠ 0 := by positivity
    simp [chartMax, hm]
  · have hmax : jsMaxList [10, 20, 5] = 20 := by norm_num [jsMaxList, max_def]
    norm_num [chartMax, hmax]
  · have hmax : jsMaxList [10, 20, 5] = 20 := by norm_num [jsMaxList, max_def]
    have hc : chartMax [10, 20, 5] = 22 := by norm_num [chartMax, hmax]
    norm_num [gridLabels, jsToFixed1, hc, List.range_succ]

/-- Witness for C7: the spec instance with values 10, 20 and 5, whose
maximum 20 is nonzero. -/
theorem chart_scale_witness :
    chartMax [10, 20, 5] = 22
    ∧ gridLabels [10, 20, 5] = [22, 33 / 2, 11, 11 / 2, 0]
    ∧ chartMax [10, 20, 5] = jsMaxList [10, 20, 5] * (11 / 10) := by
  have h := chart_scale [10, 20, 5] (by decide) (by norm_num)
  exact ⟨h.2.2.1, h.2.2.2, h.2.1 ⟨20, by norm_num, by norm_num⟩⟩

/-- C8, counterexample: with a first timestamp exactly on the hour
(09:00, epoch day zero) and a last timestamp at 10:30, the source emits
only the 10:00 tick, while the spec rule — first boundary at or after
the first timestamp — would also emit 09:00: the always-true advance in
the source makes the first tick strictly after the first timestamp. -/
theorem hour_ticks_boundary_start :
    hourTicks 32400000 37800000 = [36000000]
    ∧ hourTicksSpec 32400000 37800000 = [32400000, 36000000]
    ∧ ¬ hourTicks 32400000 37800000 = hourTicksSpec 32400000 37800000 := by
  have e1 : hourTicks 32400000 37800000 = [36000000] := by
    rw [hourTicks, firstTick_eq]
    norm_num [hourMs]
    rw [ticksFrom_le _ _ (by norm_num)]
    rw [ticksFrom_gt _ _ (by norm_num [hourMs])]
  have e2 : hourTicksSpec 32400000 37800000 = [32400000, 36000000] := by
    rw [hourTicksSpec]
    norm_num [floorHour, hourMs]
    rw [ticksFrom_le _ _ (by norm_num)]
    rw [ticksFrom_le _ _ (by norm_num [hourMs])]
    rw [ticksFrom_gt _ _ (by norm_num [hourMs])]
    norm_num [hourMs]
  exact ⟨e1, e2, by rw [e1, e2]; simp⟩

/-- C8 as amended: the hour ticks are exactly the whole-hour boundaries
strictly after the first timestamp and at or before the last one; every
generated tick has an x coordinate inside the plot bounds, so each gets
its dashed gridline and HH:00 label; the 90-minute span starting at
09:15 yields exactly the 10:00 tick. -/
theorem hour_ticks_strict (minT maxT : Nat) (hspan : minT < maxT) :
    (∀ t, t ∈ hourTicks minT maxT ↔ hourMs ∣ t ∧ minT < t ∧ t ≤ maxT)
    ∧ (∀ t ∈ hourTicks minT maxT, ∀ padL plotW : ℚ, 0 ≤ plotW →
        padL ≤ xCoord minT maxT padL plotW t
        ∧ xCoord minT maxT padL plotW t ≤ padL + plotW)
    ∧ hourTicks 33300000 38700000 = [36000000]
    ∧ hourLabelHour 36000000 = 10 := by
  have hmem : ∀ t, t ∈ hourTicks minT maxT ↔
      hourMs ∣ t ∧ minT < t ∧ t ≤ maxT := by
    intro t
    rw [hourTicks, mem_ticksFrom, firstTick_eq]
    simp only [hourMs]
    omega
  refine ⟨hmem, ?_, ?_, ?_⟩
  · intro t ht padL plotW hw
    obtain ⟨-, h1, h2⟩ := (hmem t).mp ht
    exact xCoord_bounds minT maxT t hspan h1 h2 padL plotW hw
  · rw [hourTicks, firstTick_eq]
    norm_num [hourMs]
    rw [ticksFrom_le _ _ (by norm_num)]
    rw [ticksFrom_gt _ _ (by norm_num [hourMs])]
  · norm_num [hourLabelHour, hourMs]

/-- Witness for C8 as amended: the 10:00 tick is generated over the
09:15 to 10:45 span and its x coordinate respects the left padding. -/
theorem hour_ticks_strict_witness :
    36000000 ∈ hourTicks 33300000 38700000
    ∧ (50 : ℚ) ≤ xCoord 33300000 38700000 50 700 36000000 := by
  have h := hour_ticks_strict 33300000 38700000 (by norm_num)
  refine ⟨(h.1 36000000).mpr
    ⟨by norm_num [hourMs], by norm_num, by norm_num⟩, ?_⟩
  exact (h.2.1 36000000 ((h.1 36000000).mpr
    ⟨by norm_num [hourMs], by norm_num, by norm_num⟩) 50 700 (by norm_num)).1

/-- C9, counterexample: a data list containing NaN does not have its NaN
entry treated as 0.  The vertical scale survives (the falsy-or turns the
NaN product into 1), but the y coordinate computed for the NaN entry is
itself NaN, contradicting the claim that no plotted coordinate is
NaN. -/
theorem chart_nan_coordinate :
    JSNum.isNan (chartMaxJs [JSNum.nan, JSNum.num 10]) = false
    ∧ JSNum.isNan
        (yCoordJs 10 100 (chartMaxJs [JSNum.nan, JSNum.num 10]) JSNum.nan)
      = true := by decide

/-- C9 as amended: the vertical scale is never NaN — a NaN or undefined
entry makes the maximum NaN, which the falsy-or replaces by 1 — and for
purely numeric data no y coordinate is NaN; the disk series coerces its
falsy entries (undefined, NaN or 0) to 0 at the refreshMetrics call
site; but drawChart itself does not treat NaN entries as 0: the y
coordinate computed for a NaN entry is NaN. -/
theorem chart_nan_handling (data : List JSNum) (hne : data ≠ []) :
    JSNum.isNan (chartMaxJs data) = false
    ∧ ((∀ v ∈ data, JSNum.isNan v.toNumber = false) →
        ∀ v ∈ data, ∀ padT plotH : ℚ,
          JSNum.isNan (yCoordJs padT plotH (chartMaxJs data) v) = false)
    ∧ (∀ v : JSNum, jsFalsy v = true → jsOr v (JSNum.num 0) = JSNum.num 0)
    ∧ (∀ v ∈ data, JSNum.isNan v = true → ∀ padT plotH : ℚ,
        JSNum.isNan (yCoordJs padT plotH (chartMaxJs data) v) = true) := by
  obtain ⟨M, hM, hM0⟩ := chartMaxJs_num data
  refine ⟨by rw [hM]; rfl, ?_, ?_, ?_⟩
  · intro hnum v hv padT plotH
    have hvnum : ∃ q, v = JSNum.num q := by
      have hx := hnum v hv
      cases v with
      | undef => simp [JSNum.toNumber, JSNum.isNan] at hx
      | nan => simp [JSNum.toNumber, JSNum.isNan] at hx
      | num q => exact ⟨q, rfl⟩
    obtain ⟨q, rfl⟩ := hvnum
    rw [hM]
    simp [yCoordJs, JSNum.div, JSNum.mul, JSNum.add, JSNum.sub, hM0,
      JSNum.isNan]
  · intro v hv
    simp [jsOr, hv]
  · intro v hv hnan padT plotH
    cases v with
    | undef => simp [JSNum.isNan] at hnan
    | num q => simp [JSNum.isNan] at hnan
    | nan =>
      rw [hM]
      simp [yCoordJs, JSNum.div, JSNum.mul, JSNum.add, JSNum.sub, JSNum.isNan]

/-- Witness for C9 as amended: a one-element numeric data list gives a
non-NaN scale and a non-NaN y coordinate, and an undefined disk value is
coerced to 0. -/
theorem chart_nan_handling_witness :
    JSNum.isNan (chartMaxJs [JSNum.num 10]) = false
    ∧ JSNum.isNan
        (yCoordJs 10 100 (chartMaxJs [JSNum.num 10]) (JSNum.num 10)) = false
    ∧ jsOr JSNum.undef (JSNum.num 0) = JSNum.num 0 := by
  have h := chart_nan_handling [JSNum.num 10] (by decide)
  exact ⟨h.1,
    h.2.1 (by decide) (JSNum.num 10) (by decide) 10 100,
    h.2.2.1 JSNum.undef (by decide)⟩

/-- C10: escapeHtml maps the falsy inputs — null or undefined (`none`)
and the empty string — to the empty string, and on every string its
output contains no angle-bracket character at all (ampersands and angle
brackets become entities), so interpolating the result into innerHTML
cannot introduce new HTML elements. -/
theorem escape_html_no_angle :
    escapeHtml none = [] ∧ escapeHtml (some []) = []
    ∧ ∀ s : List Char, '<' ∉ escapeHtml (some s) ∧ '>' ∉ escapeHtml (some s)
    := by
  have hchar : ∀ c : Char, '<' ∉ escapeChar c ∧ '>' ∉ escapeChar c := by
    intro c
    unfold escapeChar
    split_ifs with h1 h2 h3
    · exact ⟨by decide, by decide⟩
    · exact ⟨by decide, by decide⟩
    · exact ⟨by decide, by decide⟩
    · constructor
      · simp only [List.mem_singleton]
        exact fun hh => h2 hh.symm
      · simp only [List.mem_singleton]
        exact fun hh => h3 hh.symm
  refine ⟨rfl, rfl, ?_⟩
  intro s
  show '<' ∉ escapeHtml (some s) ∧ '>' ∉ escapeHtml (some s)
  unfold escapeHtml
  by_cases hs : s = []
  · simp [hs]
  · simp only [if_neg hs]
    constructor <;>
      · intro hmem
        rw [List.mem_flatMap] at hmem
        obtain ⟨c, -, hc⟩ := hmem
        first
          | exact absurd hc (hchar c).1
          | exact absurd hc (hchar c).2

end Supervisor
